import Mathlib

/-!
Shallow embedding of the rag-app backend (src/backend/src/index.ts and the
prototype variant src/src/server.ts), covering file discovery, per-file
extraction and splitting, ingestion batching, the vector-store append with
content-hash dedup, the chat handler and the two HTTP routes.
-/

namespace RagApp

/-- Error values carried by failing asynchronous operations; the TypeScript
code propagates `Error` objects whose `message` string is what the global
error handler reports, so errors are modelled as their message strings. -/
abbrev Err := String

/-- Embedding of JavaScript `String.prototype.trim()`: drop leading and
trailing whitespace characters. -/
def jsTrim (s : String) : String :=
  String.mk (((s.toList.dropWhile Char.isWhitespace).reverse.dropWhile
    Char.isWhitespace).reverse)

/-- Embedding of JavaScript `String.prototype.toLowerCase()` (ASCII case map,
which covers every extension and tool name the code compares). -/
def jsToLower (s : String) : String := String.mk (s.toList.map Char.toLower)

/-- Embedding of JavaScript `s.slice(0, n)`: the first `n` characters. -/
def jsSlice (n : Nat) (s : String) : String := String.mk (s.toList.take n)

/-- Embedding of Node's `path.join(folderPath, item.name)` for the simple
two-argument form used in `getAllFiles`. -/
def pathJoin (p name : String) : String := p ++ "/" ++ name

/-- Embedding of Node's `path.extname`: the suffix of the path's final
segment starting at its last dot, or the empty string when the final segment
has no dot or only a leading dot. -/
def jsExtname (p : String) : String :=
  let b := (p.toList.reverse.takeWhile (fun c => c ≠ '/')).reverse
  match b.reverse.findIdx? (fun c => c = '.') with
  | some k => if k + 1 < b.length then String.mk ((b.reverse.take (k + 1)).reverse) else ""
  | none => ""

/-- A stored document: `pageContent` plus the metadata fields the code
writes (`source`, and `hash` only for chat-appended documents). Embeds
langchain's `Document` as the code populates it. -/
structure Doc where
  pageContent : String
  source : String
  hash : Option String
deriving Repr, DecidableEq

/-- The content hashes of the chat-derived documents (those carrying a
`hash` metadata field). -/
def chatHashes (docs : List Doc) : List String := docs.filterMap (fun d => d.hash)

/-- Embedding of the dedup scan's source collection,
`const docs = (vectorStore as any)?.docs || []`: an `HNSWLib` instance has
no `docs` property (its documents live in `docstore._docs`), so the
optional chain yields `undefined` and the `|| []` makes the scanned list
empty in every store state. The same phantom property backs the stats
handlers' `?.docs?.length || 0` read. -/
def scannedDocs (_st : Option (List Doc)) : List Doc := []

/-- Embedding of `addToVectorStore(text, sourceName = "chat")` from
src/backend/src/index.ts lines 168-180, with the embedding/persistence
effects elided (they are modelled in `addToVectorStoreE`): no-op when the
store is absent or the text trims to empty; when some document of the
scanned collection (`scannedDocs`, the phantom `?.docs || []` read — always
empty) carries the content hash it would be a no-op, otherwise one new
document with metadata `{source := "chat", hash}` is appended. The hash
function (sha256 in the code) is a parameter. -/
def addToVectorStore (hashFn : String → String) (text : String)
    (st : Option (List Doc)) : Option (List Doc) :=
  match st with
  | none => none
  | some docs =>
    if jsTrim text = "" then some docs
    else
      let h := hashFn text
      if (scannedDocs (some docs)).any (fun d => d.hash == some h) then some docs
      else some (docs ++ [⟨text, "chat", some h⟩])

/-- Embedding of `addToVectorStore` including its fallible asynchronous
tail (`vectorStore.addDocuments` — an embedding call — and
`vectorStore.save` — a persistence write): when the function reaches that
tail, `eff` decides whether it succeeds or rejects. The early returns
(absent store, empty text, duplicate hash in the scanned collection)
happen before any effect. -/
def addToVectorStoreE (hashFn : String → String) (text : String)
    (st : Option (List Doc)) (eff : Except Err Unit) :
    Except Err (Option (List Doc)) :=
  match st with
  | none => Except.ok none
  | some docs =>
    if jsTrim text = "" then Except.ok (some docs)
    else
      let h := hashFn text
      if (scannedDocs (some docs)).any (fun d => d.hash == some h) then
        Except.ok (some docs)
      else eff.map (fun _ => some (docs ++ [⟨text, "chat", some h⟩]))

/-- Default value of the `SUPPORTED_FILE_FORMATS` configuration (the
env-sourced comma list already trimmed and lowercased by the config code). -/
def SUPPORTED_FILE_FORMATS : List String :=
  [".pdf", ".txt", ".docx", ".csv", ".html", ".md"]

/-- Retrieval depth `TOP_K = 5`. -/
def TOP_K : Nat := 5

/-- Ingestion batch size `BATCH_SIZE = 5`. -/
def BATCH_SIZE : Nat := 5

/-- Embedding of `isSupportedFile`: the path's extension, lowercased, is a
member of the configured format list. -/
def isSupportedFile (formats : List String) (filePath : String) : Bool :=
  formats.contains (jsToLower (jsExtname filePath))

/-- A well-formed filesystem tree node as `fs.readdirSync(p,
{withFileTypes: true})` exposes it: a plain file or a directory with its
children (symlinks and other kinds are out of scope, as in the spec). -/
inductive FSEntry where
  | file (name : String)
  | dir (name : String) (children : List FSEntry)
deriving Repr

/-- Embedding of the recursive body of `getAllFiles` (src/backend/src/index.ts
lines 69-79): flat-map over the directory items, recursing into
subdirectories and keeping a file's full path exactly when
`isSupportedFile` holds. -/
def getAllFiles (formats : List String) : String → List FSEntry → List String
  | _, [] => []
  | p, FSEntry.file n :: rest =>
    (if isSupportedFile formats (pathJoin p n) then [pathJoin p n] else []) ++
      getAllFiles formats p rest
  | p, FSEntry.dir n cs :: rest =>
    getAllFiles formats (pathJoin p n) cs ++ getAllFiles formats p rest

/-- Embedding of `getAllFiles` at the root, including its
`if (!fileExists(folderPath)) return []` guard: a non-existent root
(modelled as `none`) yields the empty list. -/
def getAllFilesRoot (formats : List String) (root : Option (List FSEntry))
    (rootPath : String) : List String :=
  match root with
  | none => []
  | some items => getAllFiles formats rootPath items

/-- All file paths in the tree at any depth, without the extension filter;
used to characterise what `getAllFiles` keeps. -/
def filePaths : String → List FSEntry → List String
  | _, [] => []
  | p, FSEntry.file n :: rest => pathJoin p n :: filePaths p rest
  | p, FSEntry.dir n cs :: rest => filePaths (pathJoin p n) cs ++ filePaths p rest

/-- Embedding of `processFile` (src/backend/src/index.ts lines 82-131).
Its whole body is wrapped in try/catch with `catch` logging and returning
`[]`. The format-specific extraction and the langchain splitter are
external effects, passed in: `extract` is the text the switch produced (or
the error the parse raised), `split` is `splitter.splitDocuments` applied
to the document built from the text (which may itself throw inside the same
try). The empty/whitespace guard `if (!text.trim()) return []` sits between
the two. -/
def processFile (split : String → Except Err (List Doc))
    (extract : Except Err String) : List Doc :=
  match (do
      let text ← extract
      if jsTrim text = "" then pure []
      else split text : Except Err (List Doc)) with
  | Except.ok docs => docs
  | Except.error _ => []

/-- Aggregation of per-file results into the flat chunk list, as
`(await Promise.all(files.map(processFile))).flat()` does. -/
def processFiles (split : String → Except Err (List Doc))
    (extracts : List (Except Err String)) : List Doc :=
  (extracts.map (processFile split)).flatten

/-- Embedding of the ingestion grouping in src/backend/src/index.ts lines
150-152: after the `if (!files.length) return` guard, every discovered
file's `processFile` task is started inside one single `Promise.all`, so
the whole file list forms one concurrent group. -/
def ingestionGroupsBackend (files : List String) : List (List String) :=
  if files.isEmpty then [] else [files]

/-- Embedding of the ingestion batching loop in src/src/server.ts lines
169-177: `for (let i = 0; i < files.length; i += BATCH_SIZE)` takes the
slice `files.slice(i, i + BATCH_SIZE)`, awaits its `Promise.all`, then
moves to the next slice. -/
def ingestionBatchesServer (files : List String) : List (List String) :=
  if h : files = [] then []
  else files.take BATCH_SIZE :: ingestionBatchesServer (files.drop BATCH_SIZE)
termination_by files.length
decreasing_by
  simp only [List.length_drop, BATCH_SIZE]
  have : files.length ≠ 0 := fun hl => h (List.length_eq_zero.mp hl)
  omega

/-- The tool registry values (src tools/index.ts): `codingTool` and
`default`. -/
inductive ToolImpl where
  | codingTool
  | defaultTool
deriving Repr, DecidableEq

/-- Embedding of the `tools` registry object's own properties:
`{ codingTool: new CodingTool(), default: new DefaultTool() }`. -/
def tools : List (String × ToolImpl) :=
  [("codingTool", ToolImpl.codingTool), ("default", ToolImpl.defaultTool)]

/-- The value a JavaScript property read `tools[key]` can produce: one of
the registry's own entries, a truthy member inherited from
`Object.prototype` (the object literal's prototype), or `undefined`. -/
inductive JsToolValue where
  | tool (t : ToolImpl)
  | protoMember (name : String)
  | undef
deriving Repr, DecidableEq

/-- The own property names of `Object.prototype` in Node: reading any of
them on the `tools` object literal yields a truthy function or object
(`__proto__` is an accessor returning `Object.prototype`), not
`undefined`. -/
def OBJECT_PROTOTYPE_MEMBERS : List String :=
  ["constructor", "hasOwnProperty", "isPrototypeOf", "propertyIsEnumerable",
   "toLocaleString", "toString", "valueOf", "__defineGetter__",
   "__defineSetter__", "__lookupGetter__", "__lookupSetter__", "__proto__"]

/-- Embedding of the property read `tools[toolChoice]` with JavaScript
lookup semantics: own keys first, then the prototype chain
(`Object.prototype`), then `undefined`. -/
def toolsIndex (key : String) : JsToolValue :=
  match tools.lookup key with
  | some t => JsToolValue.tool t
  | none =>
    if OBJECT_PROTOTYPE_MEMBERS.contains key then JsToolValue.protoMember key
    else JsToolValue.undef

/-- Embedding of `tools[toolChoice] || tools.default` in `handleChat`: the
`||` falls through to the registry's `default` entry only when the read is
falsy (`undefined`); a truthy inherited `Object.prototype` member bypasses
the fallback. -/
def selectTool (toolChoice : String) : JsToolValue :=
  match toolsIndex toolChoice with
  | JsToolValue.undef => JsToolValue.tool ToolImpl.defaultTool
  | v => v

/-- The value `handleChat` resolves and returns:
`{ reply, source: toolChoice }`. -/
structure ChatOut where
  reply : String
  source : String
deriving Repr, DecidableEq

/-- Embedding of `handleChat(message, useRAG = false)`
(src/backend/src/index.ts lines 183-217). External asynchronous
collaborators are parameters: `retrieve` is `retriever.invoke(message)`,
`routerOut` is the router LLM call, `runTool` is the whole expression
`tool.run({question, context})` applied to the member `tools[toolChoice]
|| tools.default` selected (it covers both the tool's LLM call and the
TypeError rejection raised when the selected member — e.g. an inherited
`Object.prototype` member — has no `run` function), and `appendEff` is the
effect inside `addToVectorStore` (see `addToVectorStoreE`). Note the code
awaits `addToVectorStore(reply)` before returning, so its rejection
rejects `handleChat` itself. -/
def handleChat (hashFn : String → String) (st : Option (List Doc))
    (message : String) (useRAG : Bool)
    (retrieve : String → Except Err (List Doc))
    (routerOut : Except Err String)
    (runTool : JsToolValue → String → String → Except Err String)
    (appendEff : Except Err Unit) :
    Except Err (ChatOut × Option (List Doc)) := do
  let contextText ←
    if st.isSome && useRAG then do
      let docs ← retrieve message
      pure (String.intercalate "\n\n" (docs.map (fun d => jsSlice 300 d.pageContent)))
    else pure ""
  let routerRaw ← routerOut
  let toolChoice := jsToLower (jsTrim routerRaw)
  let tool := selectTool toolChoice
  let reply ← runTool tool message contextText
  let st' ← addToVectorStoreE hashFn reply st appendEff
  pure ({ reply := reply, source := toolChoice }, st')

/-- The request body of `POST /chat`: both fields may be absent. -/
structure ChatBody where
  message : Option String
  useRAG : Option Bool
deriving Repr, DecidableEq

/-- The HTTP responses the chat route can produce: the 200 JSON
`{reply, source}`, the 400 `{error}` from the body guard, or the 500
`{error}` the global error handler sends for a rejected handler. -/
inductive HttpResponse where
  | json200 (reply : String) (source : String)
  | error400 (error : String)
  | error500 (error : String)
deriving Repr, DecidableEq

/-- Embedding of the `POST /chat` route (src/backend/src/index.ts lines
229-239) together with `asyncHandler` and the global error handler (lines
242-253): a missing or empty (falsy) `message` short-circuits to 400
before `handleChat` runs; a rejection from `handleChat` is caught by
`asyncHandler`, forwarded to the global handler and becomes a 500 with the
error message; otherwise the 200 JSON carries `handleChat`'s result. The
returned pair also tracks the vector-store state after the request. -/
def chatRoute (hashFn : String → String) (st : Option (List Doc))
    (body : ChatBody)
    (retrieve : String → Except Err (List Doc))
    (routerOut : Except Err String)
    (runTool : JsToolValue → String → String → Except Err String)
    (appendEff : Except Err Unit) : HttpResponse × Option (List Doc) :=
  match body.message with
  | none => (HttpResponse.error400 "Message is required.", st)
  | some m =>
    if m = "" then (HttpResponse.error400 "Message is required.", st)
    else
      match handleChat hashFn st m (body.useRAG.getD false)
          retrieve routerOut runTool appendEff with
      | Except.ok (out, st') => (HttpResponse.json200 out.reply out.source, st')
      | Except.error e => (HttpResponse.error500 e, st)

/-- The JSON body of `GET /vector-stats`. -/
structure StatsResponse where
  totalVectors : Nat
  files : Nat
  topK : Nat
  supportedFormats : List String
deriving Repr, DecidableEq

/-- Embedding of the `GET /vector-stats` handler in
src/backend/src/index.ts lines 220-227: it always answers 200, with
`totalVectors` read through the optional chain
`(vectorStore as any)?.docs?.length || 0` — the phantom `docs` property
(see `scannedDocs`), so the reported count is 0 in every store state. -/
def vectorStatsBackend (st : Option (List Doc)) (filesCount : Nat) :
    StatsResponse :=
  { totalVectors := (scannedDocs st).length
    files := filesCount
    topK := TOP_K
    supportedFormats := SUPPORTED_FILE_FORMATS }

/-- Responses of the `GET /vector-stats` handler in the src/src/server.ts
variant, which can also answer 404. -/
inductive StatsHttp where
  | ok (stats : StatsResponse)
  | notFound (error : String)
deriving Repr, DecidableEq

/-- Embedding of the `GET /vector-stats` handler in src/src/server.ts lines
251-261: `if (!vectorStore) return res.status(404).json({error})`,
otherwise the same stats JSON, whose `totalVectors` also reads the phantom
`(vectorStore as any).docs?.length || 0` and is therefore 0. -/
def vectorStatsServer (st : Option (List Doc)) (filesCount : Nat) :
    StatsHttp :=
  match st with
  | none => StatsHttp.notFound "Vector store not initialized."
  | some docs =>
    StatsHttp.ok
      { totalVectors := (scannedDocs (some docs)).length
        files := filesCount
        topK := TOP_K
        supportedFormats := SUPPORTED_FILE_FORMATS }

/-! Sanity checks of the string helpers against Node/JS behaviour. -/

example : jsExtname "/root/a/file.TXT" = ".TXT" := by decide
example : jsExtname "/root/.bashrc" = "" := by decide
example : jsExtname "/root/noext" = "" := by decide
example : jsTrim "  a b " = "a b" := by decide
example : jsTrim " \t\n " = "" := by decide

/-- With a successful effect, the effectful append embedding agrees with the
pure one. -/
theorem addToVectorStoreE_ok (hashFn : String → String) (text : String)
    (st : Option (List Doc)) :
    addToVectorStoreE hashFn text st (Except.ok ()) =
      Except.ok (addToVectorStore hashFn text st) := by
  cases st with
  | none => rfl
  | some docs =>
    simp only [addToVectorStoreE, addToVectorStore]
    split
    · rfl
    · split <;> rfl

/-- Claim C5: for every `POST /chat` request whose body is missing the
`message` field or whose `message` is the empty string, the server responds
with status 400 and a JSON body carrying an `error` field, and the chat
handler is not invoked: the response is the same for every choice of the
handler's collaborators and the vector-store state is returned unchanged. -/
theorem chat_missing_or_empty_message_400 :
    (∀ (hashFn : String → String) (st : Option (List Doc))
        (useRAG : Option Bool) (retrieve : String → Except Err (List Doc))
        (routerOut : Except Err String)
        (runTool : JsToolValue → String → String → Except Err String)
        (appendEff : Except Err Unit),
      chatRoute hashFn st ⟨none, useRAG⟩ retrieve routerOut runTool appendEff =
        (HttpResponse.error400 "Message is required.", st)) ∧
    (∀ (hashFn : String → String) (st : Option (List Doc))
        (useRAG : Option Bool) (retrieve : String → Except Err (List Doc))
        (routerOut : Except Err String)
        (runTool : JsToolValue → String → String → Except Err String)
        (appendEff : Except Err Unit),
      chatRoute hashFn st ⟨some "", useRAG⟩ retrieve routerOut runTool appendEff =
        (HttpResponse.error400 "Message is required.", st)) := by
  exact ⟨fun _ _ _ _ _ _ _ => rfl, fun _ _ _ _ _ _ _ => rfl⟩

/-- Claim C4: when the index is ABSENT (`vectorStore = null`), a chat
request with a non-empty message and `useRAG = true` still succeeds: the
guard `if (vectorStore && useRAG)` skips retrieval, so the context is
empty, the retrieval collaborator is never consulted (the result is
independent of `retrieve`, even a failing one), and the route answers 200
with the tool's reply computed over the empty context. -/
theorem chat_absent_index_succeeds (hashFn : String → String) (m : String)
    (hm : ¬m = "") (retrieve : String → Except Err (List Doc)) (rc : String)
    (runToolF : JsToolValue → String → String → String)
    (appendEff : Except Err Unit) :
    chatRoute hashFn none ⟨some m, some true⟩ retrieve (Except.ok rc)
        (fun t q c => Except.ok (runToolF t q c)) appendEff =
      (HttpResponse.json200
        (runToolF (selectTool (jsToLower (jsTrim rc))) m "")
        (jsToLower (jsTrim rc)), none) := by
  simp only [chatRoute, handleChat, addToVectorStoreE, hm, if_false]
  rfl

/-- Witness for C4: a concrete request against the absent index, with the
retrieval and append collaborators both failing, still yields the 200 reply
computed over the empty context. -/
theorem chat_absent_index_succeeds_witness :
    chatRoute (fun s => s) none ⟨some "hello", some true⟩
        (fun _ => Except.error "IndexNotReady") (Except.ok "default")
        (fun _ q c => Except.ok ("reply to " ++ q ++ c))
        (Except.error "append down") =
      (HttpResponse.json200 "reply to hello" "default", none) := by
  have h := chat_absent_index_succeeds (fun s => s) "hello" (by decide)
    (fun _ => Except.error "IndexNotReady") "default"
    (fun _ q c => "reply to " ++ q ++ c) (Except.error "append down")
  exact h.trans (by decide)

/-- Counterexample to claim C2: a concrete chat request whose tool produced
the answer "the answer", but whose awaited append effect rejects. The route
answers 500 with the append error and the computed answer is discarded —
not, as claimed, 200 with the reply. -/
theorem append_failure_discards_reply_counterexample :
    chatRoute (fun s => s) (some []) ⟨some "hi", some false⟩
        (fun _ => Except.ok []) (Except.ok "default")
        (fun _ _ _ => Except.ok "the answer") (Except.error "persist failed") =
      (HttpResponse.error500 "persist failed", some []) := by decide

/-- Claim C2 as amended: the chat-reply append is awaited on the response
path (`await addToVectorStore(reply)` with no try/catch), so whenever the
append actually reaches its embedding/persistence effect (non-whitespace
reply whose hash is not yet stored) and that effect fails, the whole
request fails: the client receives 500 with the append error, the computed
reply is not returned, and the store is unchanged. -/
theorem append_failure_fails_chat_request (hashFn : String → String)
    (docs : List Doc) (m rc reply e : String)
    (retrieve : String → Except Err (List Doc))
    (hm : ¬m = "") (hr : ¬jsTrim reply = "")
    (hfresh : docs.any (fun d => d.hash == some (hashFn reply)) = false) :
    chatRoute hashFn (some docs) ⟨some m, some false⟩ retrieve
        (Except.ok rc) (fun _ _ _ => Except.ok reply) (Except.error e) =
      (HttpResponse.error500 e, some docs) := by
  have step : addToVectorStoreE hashFn reply (some docs) (Except.error e) =
      Except.error e := by
    simp only [addToVectorStoreE]
    rw [if_neg hr]
    rfl
  have hchat : handleChat hashFn (some docs) m false retrieve (Except.ok rc)
      (fun _ _ _ => Except.ok reply) (Except.error e) = Except.error e := by
    show (addToVectorStoreE hashFn reply (some docs) (Except.error e) >>=
        fun st' =>
          (pure (({ reply := reply, source := jsToLower (jsTrim rc) } : ChatOut), st') :
            Except Err (ChatOut × Option (List Doc)))) =
      Except.error e
    rw [step]
    rfl
  simp only [chatRoute, hm, if_false, Option.getD]
  rw [hchat]

/-- Witness for the amended C2 at concrete inputs. -/
theorem append_failure_fails_chat_request_witness :
    chatRoute (fun s => s) (some []) ⟨some "ping", some false⟩
        (fun _ => Except.ok []) (Except.ok "default")
        (fun _ _ _ => Except.ok "an answer") (Except.error "embed down") =
      (HttpResponse.error500 "embed down", some []) := by
  exact append_failure_fails_chat_request (fun s => s) [] "ping" "default"
    "an answer" "embed down" (fun _ => Except.ok [])
    (by decide) (by decide) (by decide)

/-- Counterexample to claim C10: a router output normalizing to
"constructor" or "__proto__" reads a truthy member inherited from
`Object.prototype` through the prototype chain, so the `|| tools.default`
fallback never fires and the selected value is not a registry tool (its
subsequent `run` call is not a function) — refuting "the tool actually run
is always a member of the registry". -/
theorem router_prototype_capture_counterexample :
    selectTool (jsToLower (jsTrim "constructor")) =
      JsToolValue.protoMember "constructor" ∧
    selectTool (jsToLower (jsTrim "__proto__")) =
      JsToolValue.protoMember "__proto__" ∧
    selectTool (jsToLower (jsTrim "constructor")) ≠
      JsToolValue.tool ToolImpl.codingTool ∧
    selectTool (jsToLower (jsTrim "constructor")) ≠
      JsToolValue.tool ToolImpl.defaultTool := by
  decide

/-- Claim C10 as amended: the selection `tools[toolChoice] || tools.default`
is never `undefined`, and for every router output whose normalized
(trimmed, lowercased) form is neither a registry key nor one of
`Object.prototype`'s member names, the fallback selects the registry's
default strategy; a normalized output that is a registry key selects that
registry entry. Outputs normalizing to an `Object.prototype` member name
("constructor" or "__proto__" are the reachable ones after lowercasing)
instead select the truthy inherited member, bypassing the fallback. -/
theorem router_fallback_except_prototype (raw : String) :
    (tools.lookup (jsToLower (jsTrim raw)) = none →
      OBJECT_PROTOTYPE_MEMBERS.contains (jsToLower (jsTrim raw)) = false →
      selectTool (jsToLower (jsTrim raw)) = JsToolValue.tool ToolImpl.defaultTool) ∧
    (∀ t : ToolImpl, tools.lookup (jsToLower (jsTrim raw)) = some t →
      selectTool (jsToLower (jsTrim raw)) = JsToolValue.tool t) ∧
    selectTool (jsToLower (jsTrim raw)) ≠ JsToolValue.undef := by
  refine ⟨?_, ?_, ?_⟩
  · intro hnone hproto
    simp at hproto
    simp [selectTool, toolsIndex, hnone, hproto]
  · intro t ht
    simp [selectTool, toolsIndex, ht]
  · simp only [selectTool, toolsIndex]
    cases hl : tools.lookup (jsToLower (jsTrim raw)) with
    | some t => simp
    | none =>
      by_cases hp : jsToLower (jsTrim raw) ∈ OBJECT_PROTOTYPE_MEMBERS <;> simp [hp]

/-- Witness for the amended C10 at concrete router outputs: "garbage"
normalizes to neither a key nor a prototype member and falls back to the
default strategy; " codingTool " normalizes to "codingtool", also not a
key (the registry key is camel-cased), and falls back too; the selection
at "default" hits the registry entry; none of them is undefined. -/
theorem router_fallback_except_prototype_witness :
    selectTool (jsToLower (jsTrim "garbage")) =
      JsToolValue.tool ToolImpl.defaultTool ∧
    selectTool (jsToLower (jsTrim " codingTool ")) =
      JsToolValue.tool ToolImpl.defaultTool ∧
    selectTool (jsToLower (jsTrim "default")) =
      JsToolValue.tool ToolImpl.defaultTool ∧
    selectTool (jsToLower (jsTrim "garbage")) ≠ JsToolValue.undef := by
  refine ⟨(router_fallback_except_prototype "garbage").1 (by decide) (by decide),
    (router_fallback_except_prototype " codingTool ").1 (by decide) (by decide),
    (router_fallback_except_prototype "default").2.1 ToolImpl.defaultTool (by decide),
    (router_fallback_except_prototype "garbage").2.2⟩

/-- Claim C1: evaluation of the code at the failing input — appending the
same non-whitespace content "x" twice on an initialized store. The dedup
scan reads `(vectorStore as any)?.docs`, a property `HNSWLib` does not
have (documents live in `docstore._docs`), so it always scans the empty
list, never detects the duplicate, and the second call stores a second
record carrying the same content hash: the stored chat hashes are not
pairwise distinct, contradicting the claimed idempotence and uniqueness. -/
theorem append_twice_stores_duplicate :
    addToVectorStore (fun s => s) "x"
        (addToVectorStore (fun s => s) "x" (some [])) =
      some [⟨"x", "chat", some "x"⟩, ⟨"x", "chat", some "x"⟩] ∧
    ¬(chatHashes [⟨"x", "chat", some "x"⟩, ⟨"x", "chat", some "x"⟩]).Nodup := by
  decide

/-- Counterexample to claim C6: the `src/src/server.ts` variant of
`GET /vector-stats`, cited by the claim, does not return a successful
zero-count response when the index is ABSENT — it answers 404 with an
error body. -/
theorem vector_stats_server_absent_404 :
    vectorStatsServer none 0 =
      StatsHttp.notFound "Vector store not initialized." := by decide

/-- Claim C6 as amended: in the backend variant the stats handler is total
over the index state — it answers 200 in every state and reports zero
`totalVectors` when the index is ABSENT (indeed, the phantom
`(vectorStore as any)?.docs?.length || 0` read makes it report zero in
every state) together with `topK` and the supported formats; the server.ts
variant instead answers 404 with an error whenever the store is not
initialized. -/
theorem vector_stats_by_state (filesCount : Nat) :
    vectorStatsBackend none filesCount =
      { totalVectors := 0, files := filesCount, topK := 5,
        supportedFormats := [".pdf", ".txt", ".docx", ".csv", ".html", ".md"] } ∧
    (∀ st : Option (List Doc),
      (vectorStatsBackend st filesCount).totalVectors = 0) ∧
    vectorStatsServer none filesCount =
      StatsHttp.notFound "Vector store not initialized." := by
  exact ⟨rfl, fun _ => rfl, rfl⟩

/-- If every character of `text` is whitespace, the embedded
`text.trim()` is empty. -/
theorem jsTrim_eq_empty_of_whitespace {text : String}
    (hw : ∀ c ∈ text.toList, c.isWhitespace = true) : jsTrim text = "" := by
  have h1 : text.toList.dropWhile Char.isWhitespace = [] :=
    List.dropWhile_eq_nil_iff.mpr hw
  rw [jsTrim, h1]
  rfl

/-- Claim C8: for every input text that is empty or consists only of
whitespace, processing produces zero chunk records — the guard
`if (!text.trim()) return []` fires before the splitter runs, whatever the
splitter would do. -/
theorem whitespace_text_yields_no_chunks
    (split : String → Except Err (List Doc)) (text : String)
    (hw : ∀ c ∈ text.toList, c.isWhitespace = true) :
    processFile split (Except.ok text) = [] := by
  have ht : jsTrim text = "" := jsTrim_eq_empty_of_whitespace hw
  have hpf : processFile split (Except.ok text) =
      (match (if jsTrim text = "" then pure [] else split text :
          Except Err (List Doc)) with
        | Except.ok docs => docs
        | Except.error _ => []) := rfl
  rw [hpf, if_pos ht]
  rfl

/-- Witness for C8: a whitespace-only text yields no chunks even with a
splitter that would produce a record. -/
theorem whitespace_text_yields_no_chunks_witness :
    processFile (fun s => Except.ok [⟨s, "f.txt", none⟩]) (Except.ok " \t ") = [] := by
  exact whitespace_text_yields_no_chunks
    (fun s => Except.ok [⟨s, "f.txt", none⟩]) " \t " (by decide)

/-- The catch branch of `processFile`: an extraction error yields the
empty chunk list. -/
theorem processFile_error (split : String → Except Err (List Doc)) (e : Err) :
    processFile split (Except.error e) = [] := rfl

/-- Claim C9: per-file extraction never throws past `processFile` — its
body is wrapped in try/catch, so an extraction (or splitter) error makes
the file contribute zero chunks, and the surrounding batch aggregate is
exactly the concatenation of the other files' chunks, unaffected by the
failing file wherever it sits in the list. -/
theorem extraction_failure_zero_chunks
    (split : String → Except Err (List Doc)) (e : Err)
    (pre post : List (Except Err String)) :
    processFile split (Except.error e) = [] ∧
    processFiles split (pre ++ [Except.error e] ++ post) =
      processFiles split pre ++ processFiles split post := by
  refine ⟨rfl, ?_⟩
  simp [processFiles, processFile_error]

/-- Claim C7: file discovery yields the empty sequence for a non-existent
root; for every existing root it returns exactly the file paths, at any
nesting depth, whose extension passes `isSupportedFile` (lowercased
extension in the configured allowed set) — equivalently, the discovered
list is the filter of all file paths by that predicate, so a file with a
disallowed extension is never included; the lowercasing makes the
comparison case-insensitive, e.g. ".TXT" is accepted under the default
formats. -/
theorem discovery_filter_characterization (formats : List String) :
    (∀ rootPath : String, getAllFilesRoot formats none rootPath = []) ∧
    (∀ (rootPath : String) (items : List FSEntry),
      getAllFiles formats rootPath items =
        (filePaths rootPath items).filter (isSupportedFile formats)) ∧
    isSupportedFile SUPPORTED_FILE_FORMATS "/root/A.TXT" = true := by
  refine ⟨fun _ => rfl, ?_, by decide⟩
  intro rootPath items
  induction rootPath, items using getAllFiles.induct formats with
  | case1 p => simp [getAllFiles, filePaths]
  | case2 p n rest ih =>
    simp only [getAllFiles, filePaths, List.filter_cons, ih]
    by_cases hs : isSupportedFile formats (pathJoin p n) <;> simp [hs]
  | case3 p n cs rest ih1 ih2 =>
    simp [getAllFiles, filePaths, List.filter_append, ih1, ih2]

/-- Counterexample to claim C3: the ingestion pipeline of
src/backend/src/index.ts (the claim's first source) starts every
discovered file's processing task inside one single `Promise.all`, so a
six-file list is processed as one concurrent group of six tasks,
exceeding BATCH_SIZE = 5; the file's declared `BATCH_SIZE` constant is
never used. -/
theorem backend_ingestion_unbatched_counterexample :
    ∃ b ∈ ingestionGroupsBackend ["a", "b", "c", "d", "e", "f"],
      BATCH_SIZE < b.length := by decide

/-- Claim C3 as amended: the batching contract holds for the
src/src/server.ts variant of the pipeline — its loop processes the
discovered files in slices of at most BATCH_SIZE (5) that are awaited one
after another, and concatenating the batches in order reproduces the
discovered file list; the src/backend/src/index.ts variant instead runs
all files in a single unbounded concurrent group. -/
theorem server_ingestion_batches_bounded (files : List String) :
    (∀ b ∈ ingestionBatchesServer files, b.length ≤ BATCH_SIZE) ∧
    (ingestionBatchesServer files).flatten = files := by
  induction files using ingestionBatchesServer.induct with
  | case1 =>
    simp [ingestionBatchesServer]
  | case2 files hne ih =>
    rw [ingestionBatchesServer, dif_neg hne]
    refine ⟨?_, ?_⟩
    · intro b hb
      rcases List.mem_cons.mp hb with hb | hb
      · subst hb
        exact List.length_take_le BATCH_SIZE files
      · exact ih.1 b hb
    · simp [ih.2, List.take_append_drop]

/-- Witness for the amended C3: on a concrete six-file list the server.ts
loop forms the batches [5 files, 1 file], each within the bound, and their
concatenation is the original list. -/
theorem server_ingestion_batches_bounded_witness :
    (["a", "b", "c", "d", "e"] : List String).length ≤ BATCH_SIZE ∧
    (ingestionBatchesServer ["a", "b", "c", "d", "e", "f"]).flatten =
      ["a", "b", "c", "d", "e", "f"] := by
  refine ⟨?_, (server_ingestion_batches_bounded ["a", "b", "c", "d", "e", "f"]).2⟩
  exact (server_ingestion_batches_bounded ["a", "b", "c", "d", "e", "f"]).1
    ["a", "b", "c", "d", "e"] (by simp [ingestionBatchesServer, BATCH_SIZE])

end RagApp
